import Mathlib

/-!
Shallow embedding of the BatchCTAreplacer video pipeline
(`src/video_processor.py`, plus the batch-total computation from
`src/main.py`).

Modelling conventions:
* Python strings (filenames, folder names, aspect-ratio tokens) are
  `List Char`.
* Python floats (probed durations, frame rates, overlay durations) are
  exact rationals; none of the verified properties depend on rounding.
* A Python exception escaping the modelled scope is `Option.none`.
* Machine-specific I/O (ffmpeg/ffprobe invocations, `os.listdir`,
  `os.path.exists`) is passed in as explicit data: directory listings are
  lists, probe results are `Option` values, and the set of existing output
  files is a list of names.
-/

/-- A Python string (here: a filename, folder name, or token). -/
abbrev Name := List Char

/-- Characters of a string literal; notation for concrete inputs. -/
def lit (s : String) : Name := s.data

/-- Python `str.lower()` (ASCII, which is all the pipeline feeds it). -/
def pyLower (s : Name) : Name := s.map Char.toLower

/-- Python `str.replace(' ', '')`. -/
def stripSpaces (s : Name) : Name := s.filter (fun c => c != ' ')

/-- Python `str.split(sep)` with an explicit one-character separator:
splits at every occurrence and keeps empty pieces. -/
def splitOnChar (sep : Char) : Name → List Name
  | [] => [[]]
  | c :: rest =>
    match splitOnChar sep rest with
    | [] => [[]]
    | s :: ss => if c = sep then [] :: s :: ss else (c :: s) :: ss

/-- Python whitespace, as used by no-argument `str.split()`. -/
def isPySpace (c : Char) : Bool :=
  c == ' ' || c == '\t' || c == '\n' || c == '\r' || c == '\x0b' || c == '\x0c'

/-- Helper for `splitWs`: `acc` is the current word, reversed. -/
def splitWsAux : Name → Name → List Name
  | [], acc => if acc.isEmpty then [] else [acc.reverse]
  | c :: rest, acc =>
    if isPySpace c then
      if acc.isEmpty then splitWsAux rest [] else acc.reverse :: splitWsAux rest []
    else splitWsAux rest (c :: acc)

/-- Python no-argument `str.split()`: split on whitespace runs, dropping
empty pieces. -/
def splitWs (s : Name) : List Name := splitWsAux s []

/-- Python substring test `needle in hay` (contiguous substring). -/
def pyContains (needle : Name) : Name → Bool
  | [] => needle.isEmpty
  | c :: rest => needle.isPrefixOf (c :: rest) || pyContains needle rest

/-- The decimal digit character for `d` (only ever applied to `d < 10`;
clamps above so the function stays total and always yields a digit). -/
def digitChar (d : Nat) : Char :=
  if d = 0 then '0' else if d = 1 then '1' else if d = 2 then '2' else if d = 3 then '3'
  else if d = 4 then '4' else if d = 5 then '5' else if d = 6 then '6' else if d = 7 then '7'
  else if d = 8 then '8' else '9'

/-- Fuelled decimal rendering; `fuel ≥ ` number of digits suffices. -/
def natDigitsAux : Nat → Nat → List Char
  | 0, _ => []
  | fuel + 1, n =>
    if n < 10 then [digitChar n]
    else natDigitsAux fuel (n / 10) ++ [digitChar (n % 10)]

/-- Python `str(n)` / f-string rendering of a nonnegative integer. -/
def natDigits (n : Nat) : List Char := natDigitsAux (n + 1) n

/-- Value of a string of decimal digit characters. -/
def digitsToNat (s : List Char) : Nat :=
  s.foldl (fun a c => a * 10 + (c.toNat - 48)) 0

/-- Python `float()` restricted to the unsigned decimal literals the
pipeline produces (`"25"`, `"30000"`, `"23.976"`); every other input is a
`ValueError` (`none`).  Signs, exponents and `inf`/`nan` never reach this
code path. -/
def pyFloat (s : Name) : Option ℚ :=
  match splitOnChar '.' s with
  | [intPart] =>
    if intPart ≠ [] ∧ intPart.all Char.isDigit then some (digitsToNat intPart : ℚ)
    else none
  | [intPart, fracPart] =>
    if (intPart ++ fracPart) ≠ [] ∧ intPart.all Char.isDigit ∧ fracPart.all Char.isDigit
    then some ((digitsToNat intPart : ℚ) + (digitsToNat fracPart : ℚ) / (10 ^ fracPart.length : ℚ))
    else none
  | _ => none

/-- Helper for `pySplitext`, scanning the reversed filename for its last
dot: returns `some (revTail, revStem)` when the name splits as
`stem ++ '.' :: tail` at the last dot and the stem holds a non-dot
character (Python's leading-dot rule); `none` otherwise. -/
def revSplitExt : Name → Option (Name × Name)
  | [] => none
  | c :: rest =>
    if c = '.' then
      if rest.any (fun d => d != '.') then some ([], rest) else none
    else
      match revSplitExt rest with
      | some (t, st) => some (c :: t, st)
      | none => none

/-- Python `os.path.splitext` on a bare filename (the collision loop only
ever splits plain filenames, never paths with separators). -/
def pySplitext (s : Name) : Name × Name :=
  match revSplitExt s.reverse with
  | some (t, st) => (st.reverse, '.' :: t.reverse)
  | none => (s, [])

/-! ### `calculate_aspect_ratio` (video_processor.py:38-40) -/

/-- The integer pair `(width // gcd, height // gcd)` behind
`calculate_aspect_ratio`. -/
def reducePair (w h : Nat) : Nat × Nat :=
  (w / Nat.gcd w h, h / Nat.gcd w h)

/-- `calculate_aspect_ratio(width, height)`: renders
`f"{width//gcd}:{height//gcd}"`.  `none` models the `ZeroDivisionError`
raised by `width // gcd` when `math.gcd(width, height) = 0`, i.e. when
both dimensions are zero. -/
def calculate_aspect_ratio (w h : Nat) : Option Name :=
  if Nat.gcd w h = 0 then none
  else some (natDigits (reducePair w h).1 ++ ':' :: natDigits (reducePair w h).2)

/-! ### `find_cta_video` (video_processor.py:42-47) -/

/-- The suffix `f"_{aspect_ratio.replace(':', 'x')}.mp4"`. -/
def aspectSuffix (aspect : Name) : Name :=
  '_' :: (aspect.map fun c => if c = ':' then 'x' else c) ++ lit ".mp4"

/-- The per-file condition on video_processor.py:45:
`file.lower().endswith(f'_{aspect_suffix}.mp4') and
 cta_name.lower().replace(' ', '') in file.lower().replace(' ', '')`. -/
def cta_file_matches (ctaName aspect file : Name) : Bool :=
  (aspectSuffix aspect).isSuffixOf (pyLower file)
    && pyContains (stripSpaces (pyLower ctaName)) (stripSpaces (pyLower file))

/-- `find_cta_video(cta_folder, cta_name, aspect_ratio)` over the folder's
directory listing `files`; returns the matched filename (the source joins
it back onto the folder path, which adds no information). -/
def find_cta_video (files : List Name) (ctaName aspect : Name) : Option Name :=
  files.find? (cta_file_matches ctaName aspect)

/-- The matching condition read the way claim C5 words it: the filename is
compared case-insensitively AND whitespace-stripped in *both* checks.
Stated only to compare against `cta_file_matches`, which applies the
stripping only in the substring check. -/
def spec_cta_matches (ctaName aspect file : Name) : Bool :=
  (aspectSuffix aspect).isSuffixOf (stripSpaces (pyLower file))
    && pyContains (stripSpaces (pyLower ctaName)) (stripSpaces (pyLower file))

/-! ### frame-rate normalization inside `get_video_info`
(video_processor.py:73-83) -/

/-- The `except` branch on line 81:
`float(fr_str.split('/')[0]) if '/' in fr_str else 30.0`; a failure of
that `float()` escapes to the outer handler (`none`). -/
def frExceptBranch (fr : Name) : Option ℚ :=
  if '/' ∈ fr then pyFloat ((splitOnChar '/' fr).headD []) else some 30

/-- Lines 73-81: normalize an `r_frame_rate` string like `"25/1"` to a
number.  A zero denominator takes the `else float(num)` arm; a
two-element unpacking failure or an inner `float()` failure lands in the
`except` branch. -/
def normalizeFrameRate (fr : Name) : Option ℚ :=
  if '/' ∈ fr then
    match splitOnChar '/' fr with
    | [num, den] =>
      match pyFloat num, pyFloat den with
      | some n, some d => some (if d ≠ 0 then n / d else n)
      | _, _ => frExceptBranch fr
    | _ => frExceptBranch fr
  else
    match pyFloat fr with
    | some v => some v
    | none => frExceptBranch fr

/-! ### `replace_end_of_video_keep_audio` (video_processor.py:95-154),
as the command builder the spec calls JobBuilder.  The probe results
(duration, dimensions, frame rate) are explicit inputs; executing the
command is outside the model. -/

/-- Line 110: `overlay_start = max(0, duration - overlay_duration)`. -/
def overlayStartOf (duration overlayDuration : ℚ) : ℚ :=
  max 0 (duration - overlayDuration)

/-- The `filter_complex` expression of lines 112-119 (numbers rendered via
`toString`; only its identity across branches matters below). -/
def buildFilterComplex (overlayStart overlayDuration : ℚ) (mainW mainH : Nat) : String :=
  "[0:v]split=2[v1][v2];" ++
  "[v1]trim=0:" ++ toString overlayStart ++ ",setpts=PTS-STARTPTS[main];" ++
  "[v2]trim=" ++ toString overlayStart ++ ",setpts=PTS-STARTPTS[base];" ++
  "[1:v]trim=0:" ++ toString overlayDuration ++ ",setpts=PTS-STARTPTS,scale=" ++
    toString mainW ++ ":" ++ toString mainH ++
    ":force_original_aspect_ratio=decrease,pad=" ++ toString mainW ++ ":" ++
    toString mainH ++ ":(ow-iw)/2:(oh-ih)/2[cta];" ++
  "[base][cta]overlay=shortest=1[overlaid];" ++
  "[main][overlaid]concat=n=2:v=1:a=0[outv]"

/-- The `ffmpeg_cmd` list assembled on lines 124-142. -/
def replace_end_cmd (inputVideo ctaVideo outputVideo : String)
    (duration overlayDuration : ℚ) (mainW mainH : Nat) (framerate : ℚ)
    (useGpu : Bool) : List String :=
  let fc := buildFilterComplex (overlayStartOf duration overlayDuration)
    overlayDuration mainW mainH
  ["ffmpeg", "-y"]
    ++ (if useGpu then ["-hwaccel", "cuda"] else [])
    ++ ["-i", inputVideo, "-accurate_seek", "-i", ctaVideo]
    ++ ["-filter_complex", fc, "-map", "[outv]", "-map", "0:a", "-c:a", "copy"]
    ++ (if useGpu then ["-c:v", "h264_nvenc", "-preset", "p4", "-qp", "23"]
        else ["-c:v", "libx264", "-preset", "medium", "-crf", "23"])
    ++ ["-r", toString framerate, outputVideo]

/-! ### `generate_new_filename` (video_processor.py:204-228) and
`sanitize_filename` (230-232) -/

/-- The cutoff test on line 210:
`seg in ['DN', 'MN', 'SN', 'PN'] or len(seg) == 2`. -/
def isCutoffSeg (seg : Name) : Bool :=
  seg == lit "DN" || seg == lit "MN" || seg == lit "SN" || seg == lit "PN"
    || seg.length == 2

/-- The duration-marker test on line 213:
`seg.endswith('s') and seg[:-1].isdigit()` (note `"".isdigit()` is
false, so a bare `"s"` is not a marker). -/
def isLenMarker (seg : Name) : Bool :=
  seg.getLast? == some 's' && !seg.dropLast.isEmpty && seg.dropLast.all Char.isDigit

/-- The scan of lines 207-214: returns the segments before the first
cutoff segment and the last duration marker seen before the cutoff. -/
def scanSegs : List Name → Option Name → List Name × Option Name
  | [], acc => ([], acc)
  | seg :: rest, acc =>
    if isCutoffSeg seg then ([], acc)
    else
      let acc' := if isLenMarker seg then some seg else acc
      let r := scanSegs rest acc'
      (seg :: r.1, r.2)

/-- `sanitize_filename`: strips the characters matched by
`r'[<>:"/\\|?*]'`. -/
def sanitize_filename (s : Name) : Name :=
  s.filter (fun c => !(['<', '>', ':', '"', '/', '\\', '|', '?', '*'].contains c))

/-- `generate_new_filename(base_name, lang_code, cta_code, aspect_ratio)`
(lines 204-228). -/
def generate_new_filename (base_name lang_code cta_code aspect : Name) : Name :=
  let segments := splitOnChar '_' base_name
  let scanned := scanSegs segments none
  let segs1 := scanned.1 ++ [lang_code, cta_code]
  let segs2 := segs1 ++ (match scanned.2 with | some l => [l] | none => [])
  let segs3 :=
    if segs2.any (fun seg => (seg.map fun c => if c = 'x' then ':' else c) == aspect)
    then segs2
    else segs2 ++ [aspect.map fun c => if c = ':' then 'x' else c]
  sanitize_filename (List.intercalate (lit "_") segs3 ++ lit ".mp4")

/-- `lang_code = language[:2].upper()` (video_processor.py:171). -/
def langCode (language : Name) : Name := (language.take 2).map Char.toUpper

/-- `cta_code = ''.join(word[0].upper() for word in cta_name.split())`
(video_processor.py:177); `word.take 1` is `word[0]` since `split()`
never yields empty words. -/
def ctaCode (ctaName : Name) : Name :=
  ((splitWs ctaName).map fun w => (w.take 1).map Char.toUpper).flatten

/-- The naming step as `process_videos` wires it: base name, language
folder and CTA folder in, filename out (lines 168-191). -/
def deriveOutputName (baseName langFolder ctaName aspect : Name) : Name :=
  generate_new_filename baseName (langCode langFolder) (ctaCode ctaName) aspect

/-! ### the collision-resolution loop (video_processor.py:194-198) -/

/-- One step of the collision loop (line 196):
`f"{os.path.splitext(new_filename)[0]}_{counter}.mp4"`. -/
def nextName (name : Name) (counter : Nat) : Name :=
  (pySplitext name).1 ++ '_' :: (natDigits counter ++ lit ".mp4")

/-- The fuelled unfolding of the `while os.path.exists(output_path)` loop
(lines 194-198) over the list of names existing in the output folder;
`none` means the fuel ran out before a fresh name was found (theorem
`c9_collision_loop_terminates` below shows `existing.length + 1` checks
always suffice, which is why `resolveName` uses exactly that fuel). -/
def resolveLoop : Nat → List Name → Name → Nat → Option Name
  | 0, _, _, _ => none
  | fuel + 1, existing, name, counter =>
    if name ∈ existing then resolveLoop fuel existing (nextName name counter) (counter + 1)
    else some name

/-- The whole naming-plus-collision-resolution step on a seed name. -/
def resolveName (existing : List Name) (seed : Name) : Option Name :=
  resolveLoop (existing.length + 1) existing seed 1

/-- The pre-populated output folder of claim C1: exactly
`base.mp4, base_1.mp4, …, base_(k-1).mp4`. -/
def preFolder (k : Nat) : List Name :=
  lit "base.mp4"
    :: (List.range (k - 1)).map (fun j => lit "base_" ++ natDigits (j + 1) ++ lit ".mp4")

/-! ### the batch loop `process_videos` (video_processor.py:156-202),
projected onto its progress signals.

The CTA catalog is the two-level tree `os.listdir` exposes:
language folders, each holding CTA folders, each holding a file listing.
`probe` is the outcome of `get_video_info` per main video.  Encoding and
collision resolution emit no progress signals and do not affect the count,
so the projection keeps only the branch structure that reaches
`progress_callback()`; `none` models the uncaught `ZeroDivisionError`
from `calculate_aspect_ratio` aborting the batch. -/

/-- A CTA catalog: `(language, [(ctaName, files)])`. -/
abbrev CtaTree := List (Name × List (Name × List Name))

/-- `total_ctas` as `main.py:166-169` computes it: the number of CTA leaf
folders under the CTA root. -/
def totalLeafFolders (ctaTree : CtaTree) : Nat :=
  (ctaTree.map fun l => l.2.length).sum

/-- Number of `progress_callback()` invocations `process_videos` performs:
one when a main video's probe fails (lines 161-165), one per
(language, CTA) pair otherwise — whether the CTA match misses (184-186)
or the encode path runs (200-202). -/
def processVideosProgress (probe : Name → Option (Nat × Nat))
    (mainVideos : List Name) (ctaTree : CtaTree) : Option Nat :=
  mainVideos.foldlM (fun acc v =>
    match probe v with
    | none => some (acc + 1)
    | some (w, h) =>
      match calculate_aspect_ratio w h with
      | none => none
      | some aspect =>
        some (ctaTree.foldl (fun acc2 lang =>
          lang.2.foldl (fun acc3 cta =>
            match find_cta_video cta.2 cta.1 aspect with
            | none => acc3 + 1
            | some _ => acc3 + 1) acc2) acc)) 0

/-! ## Helper lemmas -/

theorem digitChar_isDigit (d : Nat) : (digitChar d).isDigit = true := by
  unfold digitChar
  split_ifs <;> decide

theorem natDigitsAux_digit :
    ∀ (fuel n : Nat), ∀ c ∈ natDigitsAux fuel n, c.isDigit = true := by
  intro fuel
  induction fuel with
  | zero => intro n c hc; simp [natDigitsAux] at hc
  | succ fuel ih =>
    intro n c hc
    rw [natDigitsAux] at hc
    by_cases h : n < 10
    · rw [if_pos h] at hc
      rw [List.mem_singleton] at hc
      subst hc
      exact digitChar_isDigit n
    · rw [if_neg h] at hc
      rcases List.mem_append.mp hc with h1 | h1
      · exact ih _ _ h1
      · rw [List.mem_singleton] at h1
        subst h1
        exact digitChar_isDigit (n % 10)

theorem natDigits_digit (n : Nat) : ∀ c ∈ natDigits n, c.isDigit = true :=
  natDigitsAux_digit (n + 1) n

/-! ## C4: aspect-ratio reduction is in lowest terms and idempotent -/

/-- C4: for positive `(w, h)` with `g = gcd w h`, the reduction behind
`calculate_aspect_ratio` returns `(w / g, h / g)`, that pair is already in
lowest terms, and reducing it again is the identity. -/
theorem c4_reduce_lowest_idempotent (w h : Nat) (hw : 0 < w) (hh : 0 < h) :
    reducePair w h = (w / Nat.gcd w h, h / Nat.gcd w h)
    ∧ Nat.gcd (reducePair w h).1 (reducePair w h).2 = 1
    ∧ reducePair (reducePair w h).1 (reducePair w h).2 = reducePair w h := by
  have hg : 0 < Nat.gcd w h := Nat.pos_of_ne_zero fun h0 => by
    rw [Nat.gcd_eq_zero_iff] at h0
    omega
  have hcop : Nat.gcd (w / Nat.gcd w h) (h / Nat.gcd w h) = 1 :=
    Nat.coprime_div_gcd_div_gcd hg
  refine ⟨rfl, hcop, ?_⟩
  simp [reducePair] at hcop ⊢
  rw [hcop]
  simp

/-- Witness for C4 at the spec's 1920×1080 scenario. -/
theorem c4_witness :
    0 < 1920 ∧ 0 < 1080
    ∧ (reducePair 1920 1080 = (1920 / Nat.gcd 1920 1080, 1080 / Nat.gcd 1920 1080)
       ∧ Nat.gcd (reducePair 1920 1080).1 (reducePair 1920 1080).2 = 1
       ∧ reducePair (reducePair 1920 1080).1 (reducePair 1920 1080).2 = reducePair 1920 1080) :=
  ⟨by decide, by decide, c4_reduce_lowest_idempotent 1920 1080 (by decide) (by decide)⟩

/-! ## C10: `calculate_aspect_ratio` is partial exactly at (0, 0) -/

/-- C10: `calculate_aspect_ratio 0 0` raises (models as `none`) because
`gcd 0 0 = 0`, and whenever at least one dimension is positive it returns
a value. -/
theorem c10_partial_at_zero :
    calculate_aspect_ratio 0 0 = none
    ∧ ∀ w h : Nat, 0 < w ∨ 0 < h → (calculate_aspect_ratio w h).isSome = true := by
  refine ⟨by decide, ?_⟩
  intro w h hwh
  have hg : Nat.gcd w h ≠ 0 := by
    intro h0
    rw [Nat.gcd_eq_zero_iff] at h0
    omega
  simp [calculate_aspect_ratio, hg]

/-- Witness for C10: well-defined at 16×9, undefined at 0×0. -/
theorem c10_witness :
    calculate_aspect_ratio 0 0 = none
    ∧ (0 < 16 ∨ 0 < 9) ∧ (calculate_aspect_ratio 16 9).isSome = true :=
  ⟨c10_partial_at_zero.1, Or.inl (by decide),
   c10_partial_at_zero.2 16 9 (Or.inl (by decide))⟩

/-! ## C7: overlay start time -/

/-- C7: the overlay start computed on video_processor.py:110 equals
`max 0 (duration - overlayDuration)` and is never negative, also when the
overlay is longer than the main video. -/
theorem c7_overlay_start_nonneg (d t : ℚ) :
    overlayStartOf d t = max 0 (d - t) ∧ 0 ≤ overlayStartOf d t :=
  ⟨rfl, le_max_left 0 (d - t)⟩

/-! ## C6: the GPU and CPU command lines differ only in the two
encoder-related option groups -/

/-- C6: for fixed inputs, the `useGpu = true` and `useGpu = false`
commands decompose over the same `pre`, `mid` and `post` argument
segments, differing exactly in the hardware-decode option block and in
the video-encoder/preset/quality block; every other argument is identical
and in the same relative order. -/
theorem c6_gpu_cpu_commands (iv cv ov : String) (d od : ℚ) (w h : Nat) (fr : ℚ) :
    ∃ pre mid post : List String,
      replace_end_cmd iv cv ov d od w h fr true
        = pre ++ ["-hwaccel", "cuda"] ++ mid
          ++ ["-c:v", "h264_nvenc", "-preset", "p4", "-qp", "23"] ++ post
      ∧ replace_end_cmd iv cv ov d od w h fr false
        = pre ++ mid ++ ["-c:v", "libx264", "-preset", "medium", "-crf", "23"] ++ post :=
  ⟨["ffmpeg", "-y"],
   ["-i", iv, "-accurate_seek", "-i", cv, "-filter_complex",
     buildFilterComplex (overlayStartOf d od) od w h, "-map", "[outv]", "-map", "0:a",
     "-c:a", "copy"],
   ["-r", toString fr, ov], rfl, rfl⟩

/-! ## C5: the `find_cta_video` matching condition -/

/-- C5 counterexample: the claim's condition (whitespace stripped before
*both* checks) accepts `"a_16x9 .mp4"` for CTA `"a"` at 16:9, but
`find_cta_video` rejects it, because the code strips whitespace only in
the substring check and the raw name does not end in `_16x9.mp4`. -/
theorem c5_counterexample :
    spec_cta_matches (lit "a") (lit "16:9") (lit "a_16x9 .mp4") = true
    ∧ find_cta_video [lit "a_16x9 .mp4"] (lit "a") (lit "16:9") = none := by
  decide

/-- C5 amended: a file is selected iff its lowercased name ends with
`_<w>x<h>.mp4` (unstripped) and its lowercased, whitespace-stripped name
contains the lowercased, whitespace-stripped CTA name; the first such
file in listing order is returned, and when no file satisfies both
conditions the result is `none` rather than an error. -/
theorem c5_match_characterization (files : List Name) (cta aspect : Name) :
    (find_cta_video files cta aspect = none
      ↔ ∀ f ∈ files, cta_file_matches cta aspect f = false)
    ∧ ∀ f, find_cta_video files cta aspect = some f
        → f ∈ files ∧ cta_file_matches cta aspect f = true := by
  constructor
  · simp [find_cta_video, List.find?_eq_none]
  · intro f hf
    exact ⟨List.mem_of_find?_eq_some hf, List.find?_some hf⟩

/-- Witness for C5: a folder whose single file matches. -/
theorem c5_witness :
    lit "learn_more_16x9.mp4" ∈ [lit "learn_more_16x9.mp4"]
    ∧ cta_file_matches (lit "learn_more") (lit "16:9") (lit "learn_more_16x9.mp4") = true :=
  (c5_match_characterization [lit "learn_more_16x9.mp4"] (lit "learn_more")
    (lit "16:9")).2 _ (by decide)

/-! ## C2: the generated filename for the spec's scenario -/

/-- C2 counterexample: on base name `promo_30s_DN_v1`, language folder
`english` and CTA folder `learn_more` at 16:9, the naming step does not
produce `promo_EN_LM_30s_16x9.mp4`: the kept prefix retains the `30s`
segment (which is then appended again as the captured duration marker),
and the CTA code is the initials of *whitespace*-separated words, which
for `learn_more` is just `L`. -/
theorem c2_counterexample :
    deriveOutputName (lit "promo_30s_DN_v1") (lit "english") (lit "learn_more") (lit "16:9")
      ≠ lit "promo_EN_LM_30s_16x9.mp4" := by
  decide

/-- C2 amended: the same inputs produce exactly
`promo_30s_EN_L_30s_16x9.mp4`. -/
theorem c2_generated_name :
    deriveOutputName (lit "promo_30s_DN_v1") (lit "english") (lit "learn_more") (lit "16:9")
      = lit "promo_30s_EN_L_30s_16x9.mp4" := by
  decide

/-! ## C3: progress signals when probing fails -/

/-- C3: with one main video whose probe fails and a CTA root holding two
leaf folders, `process_videos` fires the progress callback once — not
once per leaf folder — so the emitted total is 1 while
`len(mainVideos) * totalCtaLeafFolders` (the total `main.py` reports to
the progress sink) is 2. -/
theorem c3_probe_failure_progress :
    processVideosProgress (fun _ => none) [lit "main.mp4"]
        [(lit "english", [(lit "cta_a", []), (lit "cta_b", [])])] = some 1
    ∧ [lit "main.mp4"].length
        * totalLeafFolders [(lit "english", [(lit "cta_a", []), (lit "cta_b", [])])] = 2 := by
  constructor
  · decide
  · decide

/-! ## C8: zero-denominator frame rates are folded into a fallback -/

theorem splitOnChar_ne_nil (sep : Char) (l : Name) : splitOnChar sep l ≠ [] := by
  cases l with
  | nil => simp [splitOnChar]
  | cons c rest =>
    rw [splitOnChar]
    rcases h : splitOnChar sep rest with _ | ⟨s, ss⟩
    · simp
    · by_cases hc : c = sep <;> simp [hc]

theorem splitOnChar_not_mem {sep : Char} {l : Name} (h : sep ∉ l) :
    splitOnChar sep l = [l] := by
  induction l with
  | nil => rfl
  | cons c rest ih =>
    have hc : ¬(c = sep) := fun he => h (he ▸ List.mem_cons_self c rest)
    have hrest : sep ∉ rest := fun hm => h (List.mem_cons_of_mem c hm)
    rw [splitOnChar, ih hrest]
    simp [hc]

theorem splitOnChar_append {sep : Char} {a : Name} (b : Name) (h : sep ∉ a) :
    splitOnChar sep (a ++ sep :: b) = a :: splitOnChar sep b := by
  induction a with
  | nil =>
    rcases hs : splitOnChar sep b with _ | ⟨s, ss⟩
    · exact absurd hs (splitOnChar_ne_nil sep b)
    · simp [splitOnChar, hs]
  | cons c a ih =>
    have hc : ¬(c = sep) := fun he => h (he ▸ List.mem_cons_self c a)
    have ha : sep ∉ a := fun hm => h (List.mem_cons_of_mem c hm)
    rw [List.cons_append, splitOnChar, ih ha]
    simp [hc]

/-- C8: for every digit string `num`, normalizing the frame-rate string
`num ++ "/0"` (zero denominator) does not fail: `get_video_info` takes
the `else float(num)` arm and returns the numerator's value, so the probe
still reports a result for that asset. -/
theorem c8_zero_denominator (num : Name) (h1 : num ≠ [])
    (h2 : num.all Char.isDigit = true) :
    normalizeFrameRate (num ++ lit "/0") = some (digitsToNat num : ℚ) := by
  have hall : ∀ c ∈ num, c.isDigit = true := List.all_eq_true.mp h2
  have hslash : '/' ∉ num := fun hm => absurd (hall _ hm) (by decide)
  have hdot : '.' ∉ num := fun hm => absurd (hall _ hm) (by decide)
  have hsplit : splitOnChar '/' (num ++ lit "/0") = [num, ['0']] := by
    rw [show lit "/0" = '/' :: ['0'] from rfl, splitOnChar_append ['0'] hslash,
      splitOnChar_not_mem (by decide : '/' ∉ (['0'] : Name))]
  have hmem : '/' ∈ num ++ lit "/0" := by
    simp [lit]
  have hnum : pyFloat num = some (digitsToNat num : ℚ) := by
    simp only [pyFloat, splitOnChar_not_mem hdot]
    rw [if_pos ⟨h1, h2⟩]
  have h0 : pyFloat (['0'] : Name) = some ((0 : Nat) : ℚ) := by
    simp [pyFloat, splitOnChar, digitsToNat]
  rw [normalizeFrameRate, if_pos hmem, hsplit]
  dsimp only
  rw [hnum, h0]
  dsimp only
  norm_num

/-- Witness for C8 at the frame-rate string `"30/0"`. -/
theorem c8_witness :
    lit "30" ≠ [] ∧ (lit "30").all Char.isDigit = true
    ∧ normalizeFrameRate (lit "30" ++ lit "/0") = some (digitsToNat (lit "30") : ℚ) :=
  ⟨by decide, by decide, c8_zero_denominator (lit "30") (by decide) (by decide)⟩

/-! ## C9: the collision loop terminates within `existing.length + 1`
existence checks -/

theorem revSplitExt_eq {r t st : Name} (h : revSplitExt r = some (t, st)) :
    r = t ++ '.' :: st := by
  induction r generalizing t st with
  | nil => simp [revSplitExt] at h
  | cons c rest ih =>
    rw [revSplitExt] at h
    by_cases hc : c = '.'
    · rw [if_pos hc] at h
      by_cases ha : rest.any (fun d => d != '.') = true
      · rw [if_pos ha] at h
        injection h with h'
        injection h' with ht hst
        subst ht hst
        simp [hc]
      · rw [if_neg ha] at h
        cases h
    · rw [if_neg hc] at h
      rcases hrec : revSplitExt rest with _ | ⟨t', st'⟩ <;> rw [hrec] at h
      · cases h
      · injection h with h'
        injection h' with ht hst
        subst ht hst
        rw [List.cons_append]
        rw [ih hrec]

theorem pySplitext_append (s : Name) :
    (pySplitext s).1 ++ (pySplitext s).2 = s := by
  rcases h : revSplitExt s.reverse with _ | ⟨t, st⟩
  · simp [pySplitext, h]
  · have hs : s.reverse = t ++ '.' :: st := revSplitExt_eq h
    have hs' : s = st.reverse ++ '.' :: t.reverse := by
      have := congrArg List.reverse hs
      simpa [List.reverse_append] using this
    simp [pySplitext, h, ← hs']

theorem pySplitext_ext_shape (s : Name) :
    (pySplitext s).2 = [] ∨ ∃ t, (pySplitext s).2 = '.' :: t := by
  rcases h : revSplitExt s.reverse with _ | ⟨t, st⟩
  · left; simp [pySplitext, h]
  · right; exact ⟨t.reverse, by simp [pySplitext, h]⟩

theorem pySplitext_shape (B u : Name) :
    pySplitext (B ++ '_' :: u ++ lit ".mp4") = (B ++ '_' :: u, lit ".mp4") := by
  have hrev : (B ++ '_' :: u ++ lit ".mp4").reverse
      = '4' :: 'p' :: 'm' :: '.' :: (u.reverse ++ '_' :: B.reverse) := by
    simp [lit, List.reverse_append]
  have hany : (u.reverse ++ '_' :: B.reverse).any (fun d => d != '.') = true :=
    List.any_eq_true.mpr ⟨'_', List.mem_append_right _ (List.mem_cons_self _ _), by decide⟩
  have h1 : revSplitExt ('4' :: 'p' :: 'm' :: '.' :: (u.reverse ++ '_' :: B.reverse))
      = some (['4', 'p', 'm'], u.reverse ++ '_' :: B.reverse) := by
    rw [revSplitExt, if_neg (by decide : ¬('4' = '.'))]
    rw [revSplitExt, if_neg (by decide : ¬('p' = '.'))]
    rw [revSplitExt, if_neg (by decide : ¬('m' = '.'))]
    rw [revSplitExt, if_pos rfl, if_pos hany]
  rw [pySplitext, hrev, h1]
  simp [lit, List.reverse_append]

theorem resolveLoop_mem {S : List Name} {name : Name} (fuel counter : Nat)
    (h : name ∈ S) :
    resolveLoop (fuel + 1) S name counter
      = resolveLoop fuel S (nextName name counter) (counter + 1) := by
  simp [resolveLoop, h]

theorem resolveLoop_not_mem {S : List Name} {name : Name} (fuel counter : Nat)
    (h : name ∉ S) :
    resolveLoop (fuel + 1) S name counter = some name := by
  simp [resolveLoop, h]

theorem nextName_shape (B u : Name) (counter : Nat) :
    nextName (B ++ '_' :: u ++ lit ".mp4") counter
      = B ++ '_' :: (u ++ '_' :: natDigits counter) ++ lit ".mp4" := by
  rw [nextName, pySplitext_shape]
  simp [List.append_assoc]

theorem shaped_length (B u : Name) :
    (B ++ '_' :: u ++ lit ".mp4").length = B.length + u.length + 5 := by
  simp [lit]
  omega

theorem resolveLoop_reaches (S : List Name) (B e₀ : Name)
    (he : e₀ = [] ∨ ∃ t, e₀ = '.' :: t) :
    ∀ (fuel : Nat) (u : Name) (counter : Nat) (visited : Finset Name),
      (∀ v ∈ visited, v = B ++ e₀
        ∨ ∃ w, v = B ++ '_' :: w ++ lit ".mp4"
            ∧ v.length < (B ++ '_' :: u ++ lit ".mp4").length) →
      visited ⊆ S.toFinset →
      S.length + 1 ≤ fuel + visited.card →
      ∃ r, resolveLoop fuel S (B ++ '_' :: u ++ lit ".mp4") counter = some r ∧ r ∉ S := by
  intro fuel
  induction fuel with
  | zero =>
    intro u counter visited hvis hsub hcard
    exfalso
    have h1 : visited.card ≤ S.toFinset.card := Finset.card_le_card hsub
    have h2 : S.toFinset.card ≤ S.length := S.toFinset_card_le
    omega
  | succ fuel ih =>
    intro u counter visited hvis hsub hcard
    by_cases hmem : (B ++ '_' :: u ++ lit ".mp4") ∈ S
    · have hnotvis : (B ++ '_' :: u ++ lit ".mp4") ∉ visited := by
        intro hv
        rcases hvis _ hv with h | ⟨w, hw, hlen⟩
        · have h'' : B ++ ('_' :: (u ++ lit ".mp4")) = B ++ e₀ := by
            rw [← List.cons_append, ← List.append_assoc]
            exact h
          have h' : '_' :: (u ++ lit ".mp4") = e₀ := List.append_cancel_left h''
          rcases he with he | ⟨t, he⟩
          · rw [he] at h'
            exact List.cons_ne_nil _ _ h'
          · rw [he] at h'
            injection h' with hhd _
            exact absurd hhd (by decide)
        · exact absurd hlen (lt_irrefl _)
      rw [resolveLoop_mem fuel counter hmem, nextName_shape]
      apply ih (u ++ '_' :: natDigits counter) (counter + 1)
        (insert (B ++ '_' :: u ++ lit ".mp4") visited)
      · intro v hv
        rcases Finset.mem_insert.mp hv with hveq | hv'
        · subst hveq
          right
          refine ⟨u, rfl, ?_⟩
          rw [shaped_length, shaped_length]
          simp only [List.length_append, List.length_cons]
          omega
        · rcases hvis v hv' with h | ⟨w, hw, hlen⟩
          · left; exact h
          · right
            refine ⟨w, hw, lt_trans hlen ?_⟩
            rw [shaped_length, shaped_length]
            simp only [List.length_append, List.length_cons]
            omega
      · exact Finset.insert_subset_iff.mpr ⟨List.mem_toFinset.mpr hmem, hsub⟩
      · rw [Finset.card_insert_of_not_mem hnotvis]
        omega
    · exact ⟨_, resolveLoop_not_mem fuel counter hmem, hmem⟩

/-- C9: for every finite directory listing `existing` and every seed name,
the collision-resolution loop finds a name that does not yet exist using
at most `existing.length + 1` existence checks — `resolveName` runs the
loop with exactly that fuel and always succeeds — so the retry loop
terminates, bounded by the number of existing entries, not by a fixed
cap. -/
theorem c9_collision_loop_terminates (existing : List Name) (seed : Name) :
    ∃ r, resolveName existing seed = some r ∧ r ∉ existing := by
  by_cases hmem : seed ∈ existing
  · rw [resolveName, resolveLoop_mem existing.length 1 hmem]
    have hshape : nextName seed 1
        = (pySplitext seed).1 ++ '_' :: natDigits 1 ++ lit ".mp4" := by
      rw [nextName, List.append_assoc, List.cons_append]
    rw [hshape]
    apply resolveLoop_reaches existing (pySplitext seed).1 (pySplitext seed).2
      (pySplitext_ext_shape seed) existing.length (natDigits 1) 2 {seed}
    · intro v hv
      rw [Finset.mem_singleton] at hv
      subst hv
      left
      exact (pySplitext_append _).symm
    · rw [Finset.singleton_subset_iff, List.mem_toFinset]
      exact hmem
    · rw [Finset.card_singleton]
  · exact ⟨seed, by rw [resolveName, resolveLoop_not_mem existing.length 1 hmem], hmem⟩

/-! ## C1: collision resolution on a pre-populated folder -/

/-- C1 counterexample: against the folder `{base.mp4, base_1.mp4}`
(k = 2), the naming-plus-collision-resolution step on seed `base.mp4`
yields `base_1_2.mp4`, not `base_2.mp4`: the loop suffixes the *previous
attempt's* stem, not the original seed. -/
theorem c1_counterexample :
    resolveName (preFolder 2) (lit "base.mp4") = some (lit "base_1_2.mp4")
    ∧ lit "base_1_2.mp4" ≠ lit "base_2.mp4" := by
  constructor
  · decide
  · decide

/-- C1 amended: on the folder `{base.mp4, base_1.mp4, …, base_(k-1).mp4}`
the step yields `base_1.mp4` when k = 1 (the claim's statement holds
there), and `base_1_2.mp4` for every k ≥ 2, because each retry appends
`_<n>` to the stem of the previous attempt rather than to the seed. -/
theorem c1_collision_result (k : Nat) (hk : 1 ≤ k) :
    resolveName (preFolder k) (lit "base.mp4")
      = some (if k = 1 then lit "base_1.mp4" else lit "base_1_2.mp4") := by
  rcases k with _ | _ | k'
  · omega
  · decide
  · rw [if_neg (by omega : ¬(k' + 2 = 1))]
    have hlen : (preFolder (k' + 2)).length = k' + 2 := by
      simp [preFolder]
    have hmem0 : lit "base.mp4" ∈ preFolder (k' + 2) := List.mem_cons_self _ _
    have hmem1 : lit "base_1.mp4" ∈ preFolder (k' + 2) :=
      List.mem_cons_of_mem _
        (List.mem_map.mpr ⟨0, List.mem_range.mpr (by omega), by decide⟩)
    have hnot : lit "base_1_2.mp4" ∉ preFolder (k' + 2) := by
      intro hmem
      rcases List.mem_cons.mp hmem with h | h
      · exact absurd h (by decide)
      · obtain ⟨j, hj, hfj⟩ := List.mem_map.mp h
        rw [show lit "base_1_2.mp4" = lit "base_" ++ (['1', '_', '2'] ++ lit ".mp4")
            from by decide, List.append_assoc] at hfj
        have h2 : natDigits (j + 1) ++ lit ".mp4" = ['1', '_', '2'] ++ lit ".mp4" :=
          List.append_cancel_left hfj
        have hlen3 : (natDigits (j + 1)).length = 3 := by
          have h3 := congrArg List.length h2
          simp only [List.length_append,
            show (lit ".mp4").length = 4 from by decide,
            show (['1', '_', '2'] : Name).length = 3 from rfl] at h3
          omega
        have h4 : natDigits (j + 1) = ['1', '_', '2'] :=
          (List.append_inj h2 (by rw [hlen3]; rfl)).1
        have h5 : '_' ∈ natDigits (j + 1) := by
          rw [h4]
          decide
        exact absurd (natDigits_digit _ _ h5) (by decide)
    rw [resolveName, resolveLoop_mem _ 1 hmem0,
      show nextName (lit "base.mp4") 1 = lit "base_1.mp4" from by decide, hlen]
    rw [show k' + 2 = k' + 1 + 1 from rfl, resolveLoop_mem _ 2 hmem1,
      show nextName (lit "base_1.mp4") 2 = lit "base_1_2.mp4" from by decide]
    exact resolveLoop_not_mem k' 3 hnot

/-- Witness for C1 amended at k = 2. -/
theorem c1_witness :
    1 ≤ 2 ∧ resolveName (preFolder 2) (lit "base.mp4")
      = some (if 2 = 1 then lit "base_1.mp4" else lit "base_1_2.mp4") :=
  ⟨by decide, c1_collision_result 2 (by decide)⟩

